import Mathlib

/-! The rep: completion callback handler and process entry point.

A shallow embedding of `api/taskcomplete/handler.go` and `main.go`.

Go code with effects is embedded as explicit state passing: every function
takes the state of the objects it touches and returns the new state, and the
calls it makes on its collaborators are recorded, in program order, in a list.
Results of calls into packages that are not part of this repository (the JSON
decoders, the feed store, the operating system) are inputs of the model.
-/

namespace Rep

/-! ## Data model -/

/-- Raw bytes (`[]byte`). -/
abbrev Bytes := List Nat

/-- The `models.Task` record of the runtime schema, reduced to the fields the
rep reads or passes on. -/
structure Task where
  Guid : String
  Stack : String
  Failed : Bool
  FailureReason : String
  Result : String
  deriving DecidableEq, Repr

/-- The `client.ContainerRunResult` record the executor posts on completion. -/
structure ContainerRunResult where
  Failed : Bool
  FailureReason : String
  Result : String
  Metadata : Bytes
  deriving DecidableEq, Repr

/-! ## `api/taskcomplete/handler.go` -/

namespace taskcomplete

/-- The two decoders `ServeHTTP` calls; both live outside this repository
(`client.NewContainerRunResultFromJSON` and `json.Unmarshal` into a
`models.Task`), so their results are given by these functions. -/
structure Decoders where
  NewContainerRunResultFromJSON : Bytes → Except String ContainerRunResult
  UnmarshalTask : Bytes → Except String Task

/-- The part of `bbs.RepBBS` the handler uses: `CompleteTask` acts on the feed
state `σ` and returns an error or nil. -/
structure RepBBS (σ : Type) where
  CompleteTask : σ → Task → Bool → String → String → σ × Option String

/-- One recorded call of `CompleteTask`, with its arguments. -/
structure CompleteTaskCall where
  task : Task
  failed : Bool
  failureReason : String
  result : String
  deriving DecidableEq, Repr

/-- One record handed to `logger.Errord`: the `"error"` datum and the message. -/
structure LogRecord where
  error : String
  message : String
  deriving DecidableEq, Repr

/-- Model of `http.ResponseWriter`: the status passed to `WriteHeader`, if it was
called, and the bytes written as body. -/
structure ResponseWriter where
  status : Option Nat
  body : Bytes
  deriving DecidableEq, Repr

/-- The writer a handler is given: nothing written yet. -/
def ResponseWriter.fresh : ResponseWriter := ⟨none, []⟩

/-- Call of `w.WriteHeader(code)`; only the first call sets the status. -/
def ResponseWriter.WriteHeader (w : ResponseWriter) (code : Nat) : ResponseWriter :=
  match w.status with
  | none => { w with status := some code }
  | some _ => w

/-- The status `net/http` sends once the handler has returned: 200 when
`WriteHeader` was never called. -/
def ResponseWriter.sentStatus (w : ResponseWriter) : Nat :=
  w.status.getD 200

def StatusBadRequest : Nat := 400

/-- Model of `*http.Request`: what `ioutil.ReadAll(r.Body)` returns, the bytes
read and the read error. -/
structure Request where
  Body : Bytes
  ReadErr : Option String
  deriving DecidableEq, Repr

/-- Everything `ServeHTTP` can change: the feed behind the BBS, the response
writer, and the records of the calls it made. -/
structure World (σ : Type) where
  feed : σ
  w : ResponseWriter
  bodyClosed : Bool
  logged : List LogRecord
  completeCalls : List CompleteTaskCall
  completeErrs : List (Option String)

/-- The state in which a request arrives. -/
def World.start {σ : Type} (feed : σ) : World σ :=
  ⟨feed, ResponseWriter.fresh, false, [], [], []⟩

/-- The `handler` struct; the logger is represented by `World.logged`. -/
structure handler (σ : Type) where
  bbs : RepBBS σ
  dec : Decoders

/-- Embedding of `(handler *handler) ServeHTTP(w, r)`. The error of `ReadAll` is
overwritten by the next assignment to `err`, and the error of `CompleteTask`
is discarded. -/
def handler.ServeHTTP {σ : Type} (h : handler σ) (s : World σ) (r : Request) : World σ :=
  let requestBody := r.Body
  let s := { s with bodyClosed := true }
  match h.dec.NewContainerRunResultFromJSON requestBody with
  | .error err =>
    let s := { s with logged := s.logged ++
      [LogRecord.mk ("Could not unmarshal response: " ++ err)
        "game-scheduler.complete-callback-handler.failed"] }
    { s with w := s.w.WriteHeader StatusBadRequest }
  | .ok runResult =>
    match h.dec.UnmarshalTask runResult.Metadata with
    | .error err =>
      { s with logged := s.logged ++
          [LogRecord.mk ("Could not unmarshal metadata: " ++ err)
            "game-scheduler.complete-callback-handler.failed"] }
    | .ok task =>
      let out := h.bbs.CompleteTask s.feed task runResult.Failed runResult.FailureReason
        runResult.Result
      { s with
        feed := out.1
        completeCalls := s.completeCalls ++
          [CompleteTaskCall.mk task runResult.Failed runResult.FailureReason runResult.Result]
        completeErrs := s.completeErrs ++ [out.2] }

end taskcomplete

/-! ## `main.go` -/

/-- An `os.Signal` value, by its number (`syscall.Signal`). -/
abbrev Signal := Nat

def SIGINT : Signal := 2
def SIGUSR1 : Signal := 10
def SIGTERM : Signal := 15

/-- The two signal channels `main` makes, each with a buffer of one. -/
inductive Chan where
  | signals
  | maintainSignals
  deriving DecidableEq, Repr

/-- The command-line flags, after `flag.Parse()`. `heartbeatInterval` is a
`time.Duration`, in nanoseconds. -/
structure Flags where
  etcdCluster : String
  logLevel : String
  syslogName : String
  heartbeatInterval : Nat
  executorURL : String
  listenAddr : String
  stack : String
  deriving DecidableEq, Repr

/-- The values the flags have when none is given on the command line. -/
def Flags.defaults : Flags where
  etcdCluster := "http://127.0.0.1:4001"
  logLevel := "info"
  syslogName := ""
  heartbeatInterval := 60 * 1000000000
  executorURL := "http://127.0.0.1:1700"
  listenAddr := "0.0.0.0:20515"
  stack := ""

/-- The `models.RepPresence` record. -/
structure RepPresence where
  RepID : String
  Stack : String
  deriving DecidableEq, Repr

/-- A log sink of the steno configuration. -/
inductive Sink where
  | ioStdout
  | syslog (name : String)
  deriving DecidableEq, Repr

/-- What `router.NewRequestGenerator(host, routes)` is built from; the route
table is the constant `routes.Routes`. -/
structure RequestGenerator where
  host : String
  deriving DecidableEq, Repr

/-- The value `net.Listen(network, addr)` returns on success: `bound` is what
`Addr()` of the listener reports, the address the socket is bound to. -/
structure Listener where
  network : String
  addr : String
  bound : String
  deriving DecidableEq, Repr

/-- The value of `taskcomplete.NewHandler(bbs, logger)`, of which the process
makes one. -/
inductive HttpHandler where
  | taskcomplete
  deriving DecidableEq, Repr

/-- The value of `api.NewServer(first, second)`: the two handlers it was given,
`none` being nil. -/
structure ApiServer where
  first : Option HttpHandler
  second : Option HttpHandler
  deriving DecidableEq, Repr

/-- The arguments of `task_scheduler.New`, leaving out the BBS and the logger,
of which the process has one each. -/
structure TaskSchedulerArgs where
  callbackGenerator : RequestGenerator
  stack : String
  executorURL : String
  deriving DecidableEq, Repr

/-- The arguments of `lrp_scheduler.New`, leaving out the BBS and the logger. -/
structure LrpSchedulerArgs where
  stack : String
  executorURL : String
  deriving DecidableEq, Repr

/-- The results of the calls `main` makes outside `main.go`, and what reaches the
process from outside. An `Option String` is a Go `error`, `none` being nil.
`BoundAddr` is the address the listener is bound to when `Listen` succeeds.
`arrivals` are the signals delivered to the process once both channels are
registered, in order, and `maintainerReceiving` tells whether the goroutine of
the maintainer is receiving from its signal channel. -/
structure Env where
  GetLogLevel : String → Except String Nat
  Connect : List String → Option String
  NewServer : Option String
  Listen : String → String → Option String
  BoundAddr : String → String → String
  TaskRun : Option String
  NewV4 : Except String String
  arrivals : List Signal
  maintainerReceiving : Bool

/-- The calls `main` and its goroutines make, as they are recorded. -/
inductive Event where
  | flagParse
  | GetLogLevel (level : String)
  | logFatalf (msg : String)
  | stenoInit (level : Nat) (sinks : List Sink)
  | NewLogger (name : String)
  | NewETCDStoreAdapter (urls : List String) (workers : Nat)
  | NewRepBBS
  | Connect
  | Errord (error : String) (msg : String)
  | makeSignalChan (c : Chan) (size : Nat)
  | signalNotify (c : Chan) (sigs : List Signal)
  | clientNew (url : String)
  | NewRequestGenerator (host : String)
  | taskSchedulerNew (args : TaskSchedulerArgs)
  | lrpSchedulerNew (args : LrpSchedulerArgs)
  | NewHandler
  | NewServer (first : Option HttpHandler) (second : Option HttpHandler)
  | goReadyReporter
  | Listen (network : String) (addr : String)
  | goServe (listener : Listener) (handler : ApiServer)
  | taskRepRun
  | lrpRepRun
  | NewV4
  | maintainNew (presence : RepPresence) (heartbeatInterval : Nat)
  | goMaintainLoop
  | maintainerRun (ready : Nat)
  | Errorf (msg : String)
  | makeMaintainReady
  | recv (c : Chan) (sig : Signal)
  | taskRepStop
  | lrpRepStop
  | send (c : Chan) (sig : Signal)
  | osExit (code : Nat)
  | goPanic (msg : String)
  deriving DecidableEq, Repr

/-- How a goroutine ends: by ending the process, or blocked for good in a send
on a channel. -/
inductive Halt where
  | exited (code : Nat)
  | panicked (msg : String)
  | blocked (c : Chan)
  deriving DecidableEq, Repr

/-- A piece of sequential Go code: the calls it makes, in order, and either the
way it ended the process or the value it continues with. -/
def Proc (α : Type) : Type := List Event × Except Halt α

def Proc.pure {α : Type} (a : α) : Proc α := ([], .ok a)

def Proc.bind {α β : Type} (m : Proc α) (f : α → Proc β) : Proc β :=
  match m.2 with
  | .error h => (m.1, .error h)
  | .ok a => (m.1 ++ (f a).1, (f a).2)

instance : Monad Proc where
  pure := Proc.pure
  bind := Proc.bind

/-- Record one call. -/
def call (e : Event) : Proc Unit := ([e], .ok ())

/-- Call of `os.Exit(code)`. -/
def osExit {α : Type} (code : Nat) : Proc α := ([.osExit code], .error (.exited code))

/-- Call of `log.Fatalf`: prints, then calls `os.Exit(1)`. -/
def logFatalf {α : Type} (msg : String) : Proc α :=
  ([.logFatalf msg, .osExit 1], .error (.exited 1))

/-- A send on `c` that no receiver and no free buffer slot lets through. -/
def blockedSend {α : Type} (c : Chan) : Proc α := ([], .error (.blocked c))

/-- The signals each channel is registered for with `signal.Notify`. -/
def notified : Chan → List Signal
  | .signals => [SIGTERM, SIGINT]
  | .maintainSignals => [SIGTERM, SIGINT, SIGUSR1]

/-- The buffer size both signal channels are made with. -/
def chanSize : Nat := 1

/-- A Go `panic` that nothing recovers. -/
def goPanic {α : Type} (msg : String) : Proc α := ([.goPanic msg], .error (.panicked msg))

/-- What `main` holds when it reaches its signal loop. -/
structure Started where
  taskRep : TaskSchedulerArgs
  lrpRep : LrpSchedulerArgs
  listener : Listener
  apiHandler : ApiServer
  repPresence : RepPresence
  deriving DecidableEq, Repr

/-- Lines 77 to 195 of `main`: everything before the signal loop. -/
def startup (flags : Flags) (env : Env) : Proc Started := do
  call .flagParse
  call (.GetLogLevel flags.logLevel)
  let l ← match env.GetLogLevel flags.logLevel with
    | .error _ => logFatalf ("Invalid loglevel: " ++ flags.logLevel ++ "\n")
    | .ok l => Proc.pure l
  if flags.stack = "" then
    logFatalf "A stack must be specified"
  let sinks := [Sink.ioStdout]
  let sinks := if flags.syslogName ≠ "" then sinks ++ [Sink.syslog flags.syslogName] else sinks
  call (.stenoInit l sinks)
  call (.NewLogger "rep")
  call (.NewETCDStoreAdapter (flags.etcdCluster.splitOn ",") 10)
  call .NewRepBBS
  call .Connect
  match env.Connect (flags.etcdCluster.splitOn ",") with
  | some err =>
    call (.Errord err "rep.etcd-connect.failed")
    osExit 1
  | none => Proc.pure ()
  call (.makeSignalChan .signals chanSize)
  call (.signalNotify .signals (notified .signals))
  call (.clientNew flags.executorURL)
  let callbackGenerator : RequestGenerator := ⟨"http://" ++ flags.listenAddr⟩
  call (.NewRequestGenerator callbackGenerator.host)
  let taskRep : TaskSchedulerArgs := ⟨callbackGenerator, flags.stack, flags.executorURL⟩
  call (.taskSchedulerNew taskRep)
  let lrpRep : LrpSchedulerArgs := ⟨flags.stack, flags.executorURL⟩
  call (.lrpSchedulerNew lrpRep)
  call .NewHandler
  let apiHandler : ApiServer := ⟨some .taskcomplete, none⟩
  call (.NewServer apiHandler.first apiHandler.second)
  match env.NewServer with
  | some err =>
    call (.Errord err "rep.api-server-initialize.failed")
    osExit 1
  | none => Proc.pure ()
  call .goReadyReporter
  call (.Listen "tcp" flags.listenAddr)
  match env.Listen "tcp" flags.listenAddr with
  | some err =>
    call (.Errord err "rep.listening.failed")
    osExit 1
  | none => Proc.pure ()
  let apiListener : Listener :=
    ⟨"tcp", flags.listenAddr, env.BoundAddr "tcp" flags.listenAddr⟩
  call (.goServe apiListener apiHandler)
  call .taskRepRun
  match env.TaskRun with
  | some err =>
    call (.Errord err "rep.task-scheduler.failed")
    osExit 1
  | none => Proc.pure ()
  call .lrpRepRun
  call .NewV4
  let repID ← match env.NewV4 with
    | .error err => goPanic ("Failed to generate a random guid....:" ++ err)
    | .ok u => Proc.pure u
  call (.makeSignalChan .maintainSignals chanSize)
  call (.signalNotify .maintainSignals (notified .maintainSignals))
  let repPresence : RepPresence := ⟨repID, flags.stack⟩
  call (.maintainNew repPresence flags.heartbeatInterval)
  call .goMaintainLoop
  return ⟨taskRep, lrpRep, apiListener, apiHandler, repPresence⟩

/-- What the arrival of `sig` does to the buffer of `maintainSignals`: the
runtime sends the signal without blocking when the channel is registered for
it, dropping it when the buffer is full, and the maintainer, when it is
receiving, takes what is buffered. -/
def deliverMaintain (receiving : Bool) (buf : List Signal) (sig : Signal) : List Signal :=
  let buf :=
    if sig ∈ notified .maintainSignals ∧ buf.length < chanSize then buf ++ [sig] else buf
  if receiving then [] else buf

/-- Lines 197 to 206 of `main`: the loop over the values received from the
`signals` channel, for the signals that arrive at the process, in order, with
`buf` the content of the buffer of `maintainSignals`. An arriving signal is
first delivered by the runtime to the channels registered for it, and `main`
calls both `Stop`s before its own send, so the send finds the buffer as the
delivery has left it: it goes through when there is a free slot and blocks
otherwise. With no arrival left the goroutine is blocked in the receive, which
is the result `.ok ()`. -/
def signalLoop (receiving : Bool) : List Signal → List Signal → Proc Unit
  | _, [] => Proc.pure ()
  | buf, sig :: rest =>
    let buf := deliverMaintain receiving buf sig
    if sig ∈ notified .signals then do
      call (.recv .signals sig)
      if sig = SIGINT ∨ sig = SIGTERM then
        call .taskRepStop
        call .lrpRepStop
        if buf.length < chanSize then
          call (.send .maintainSignals sig)
          osExit 0
        else
          blockedSend .maintainSignals
      else
        signalLoop receiving buf rest
    else
      signalLoop receiving buf rest

/-- Embedding of `func main()`. -/
def main (flags : Flags) (env : Env) : Proc Unit := do
  let _ ← startup flags env
  signalLoop env.maintainerReceiving [] env.arrivals

/-- The goroutine of lines 184 to 195. `Run k` is what the call number `k` of
`maintainer.Run` returns (`none` is nil); `fuel` bounds the number of
iterations looked at, and the result is `true` when the loop has reached its
`break`. The channel handed to `Run` is numbered by how often `maintainReady`
was made anew. -/
def maintainLoop (Run : Nat → Option String) : Nat → Nat → List Event × Bool
  | 0, _ => ([], false)
  | fuel + 1, k =>
    match Run k with
    | some err =>
      let rest := maintainLoop Run fuel (k + 1)
      ([.maintainerRun k, .Errorf ("failed to start maintaining presence: " ++ err),
        .makeMaintainReady] ++ rest.1, rest.2)
    | none => ([.maintainerRun k], true)

/-- The numbers of the calls of `maintainer.Run` among recorded calls, in order. -/
def runCalls (es : List Event) : List Nat :=
  es.filterMap (fun e => match e with
    | .maintainerRun k => some k
    | _ => none)

/-! ## The Task scheduler

`task_scheduler` is a package of this repository whose source is not at hand;
`main` only constructs it and calls `Run` and `Stop`. What follows is written
from sections 3, 4.1, 4.2 and 6 of the specification. -/

namespace task_scheduler

/-- Modelled from the spec: the lifecycle states of a Task in the work feed
(section 3); the source of the feed is missing. -/
inductive Lifecycle where
  | Pending
  | Claimed
  | Running
  | Completed
  deriving DecidableEq, Repr

/-- Modelled from the spec: what the work feed holds for one Task identity, the
record and its lifecycle state (section 3); the source of the feed is missing. -/
structure Entry where
  task : Task
  state : Lifecycle
  deriving DecidableEq, Repr

/-- Modelled from the spec: the work feed as a store of Tasks keyed by identity
(section 3); the source of the feed is missing. -/
abbrev Feed := String → Option Entry

/-- Modelled from the spec: `Claim(item) -> bool` of the work feed (sections 4.1
and 6), a single compare-and-swap from Pending to Claimed that fails on any
other state; the source of the feed is missing. -/
def Feed.Claim (f : Feed) (t : Task) : Feed × Bool :=
  match f t.Guid with
  | some ⟨t0, .Pending⟩ => (Function.update f t.Guid (some ⟨t0, .Claimed⟩), true)
  | _ => (f, false)

/-- Modelled from the spec: the move from Claimed to Running the Task scheduler
drives after a dispatch (section 3); the source of the feed is missing. -/
def Feed.Start (f : Feed) (t : Task) : Feed :=
  match f t.Guid with
  | some ⟨t0, .Claimed⟩ => Function.update f t.Guid (some ⟨t0, .Running⟩)
  | _ => f

/-- Modelled from the spec: `CompleteTask(taskID, failed, failureReason, result)`
of the work feed (section 6), which resolves the Task to its terminal state
with the three fields recorded; the source of the feed is missing. -/
def Feed.CompleteTask (f : Feed) (t : Task) (failed : Bool) (failureReason result : String) :
    Feed :=
  match f t.Guid with
  | some ⟨t0, _⟩ =>
    Function.update f t.Guid
      (some ⟨{ t0 with Failed := failed, FailureReason := failureReason, Result := result },
        .Completed⟩)
  | none => f

/-- Modelled from the spec: `WatchDesired(kind, stack)` of the work feed (sections
4.1 and 6): of the desired-item events the feed delivers, at least once each,
those whose capability-stack is the given one; the source of the feed is
missing. -/
def WatchDesired (stack : String) (delivered : List Task) : List Task :=
  delivered.filter (fun t => t.Stack = stack)

/-- Modelled from the spec: the container-creation request of section 4.2 and
the create-container call of section 6, sent as `POST /containers`; the source
of the Task scheduler is missing. -/
structure ContainerRequest where
  Method : String
  Path : String
  CompleteURL : String
  Metadata : Bytes
  deriving DecidableEq, Repr

/-- Modelled from the spec: the Task scheduler as `main` constructs it, with the
serialisation of a Task and the fixed callback path it uses (section 4.2); the
source of the Task scheduler is missing. -/
structure TaskScheduler where
  callbackGenerator : RequestGenerator
  stack : String
  callbackPath : String
  marshal : Task → Bytes

/-- Modelled from the spec: the request built per claimed Task (section 4.2):
the callback URL addresses the rep's own listener at the fixed path and the
metadata is the serialised Task; the source of the Task scheduler is missing. -/
def TaskScheduler.request (s : TaskScheduler) (t : Task) : ContainerRequest where
  Method := "POST"
  Path := "/containers"
  CompleteURL := s.callbackGenerator.host ++ s.callbackPath
  Metadata := s.marshal t

/-- Modelled from the spec: what the Task scheduler acts on, the work feed and
the requests it has issued to the execution agent, each with the Task it was
issued for; the source of the Task scheduler is missing. -/
structure SchedulerWorld where
  feed : Feed
  issued : List (Task × ContainerRequest)

/-- Modelled from the spec: the handling of one desired Task by the Task
scheduler (sections 4.1 and 4.2): claim, skip silently when the claim is lost,
dispatch, and on a dispatch failure resolve the Task as failed with the reason;
`agent` gives the error of the execution agent, if any. The source of the Task
scheduler is missing. -/
def TaskScheduler.handle (s : TaskScheduler) (agent : ContainerRequest → Option String)
    (w : SchedulerWorld) (t : Task) : SchedulerWorld :=
  match w.feed.Claim t with
  | (_, false) => w
  | (f, true) =>
    let req := s.request t
    match agent req with
    | none => ⟨Feed.Start f t, w.issued ++ [(t, req)]⟩
    | some reason => ⟨Feed.CompleteTask f t true reason "", w.issued ++ [(t, req)]⟩

/-- Modelled from the spec: the Task scheduler between `Run` and `Stop`
(sections 4.1 and 4.2): it handles, in order, the desired Tasks the watch for
its stack delivers; the source of the Task scheduler is missing. -/
def TaskScheduler.watch (s : TaskScheduler) (agent : ContainerRequest → Option String)
    (w : SchedulerWorld) (delivered : List Task) : SchedulerWorld :=
  (WatchDesired s.stack delivered).foldl (s.handle agent) w

/-- The requests issued for the Task of identity `guid`. -/
def SchedulerWorld.issuedFor (w : SchedulerWorld) (guid : String) : List ContainerRequest :=
  (w.issued.filter (fun p => p.1.Guid = guid)).map Prod.snd

end task_scheduler

/-! ## Concrete inputs -/

namespace Examples

open taskcomplete

def taskA : Task := ⟨"task-a", "linux64", false, "", ""⟩

/-- Stands for the serialised `taskA`. -/
def metadataA : Bytes := [65]

/-- Stands for a well-formed callback body about `taskA`. -/
def bodyA : Bytes := [1]

/-- Stands for a well-formed callback body whose metadata is not a Task. -/
def bodyNoTask : Bytes := [2]

/-- Stands for a body that is not a run result. -/
def bodyGarbage : Bytes := [3]

def decoders : Decoders where
  NewContainerRunResultFromJSON b :=
    if b = bodyA then .ok ⟨true, "oom", "", metadataA⟩
    else if b = bodyNoTask then .ok ⟨false, "", "done", []⟩
    else .error "invalid character"
  UnmarshalTask m :=
    if m = metadataA then .ok taskA else .error "unexpected end of JSON input"

/-- A feed that keeps the list of the completions it was told of. -/
def bbsRecording : RepBBS (List CompleteTaskCall) where
  CompleteTask feed t failed reason result := (feed ++ [⟨t, failed, reason, result⟩], none)

/-- A feed whose `CompleteTask` always fails. -/
def bbsFailing : RepBBS (List CompleteTaskCall) where
  CompleteTask feed _ _ _ _ := (feed, some "store unavailable")

def handlerA : handler (List CompleteTaskCall) := ⟨bbsRecording, decoders⟩

/-- The default flags with the stack given. -/
def flagsLinux : Flags := { Flags.defaults with stack := "linux64" }

/-- Every call succeeds and the listener is bound to the address asked for; the
maintainer is receiving; SIGUSR1, then SIGTERM, then SIGINT arrive. -/
def envUp : Env where
  GetLogLevel _ := .ok 1
  Connect _ := none
  NewServer := none
  Listen _ _ := none
  BoundAddr _ addr := addr
  TaskRun := none
  NewV4 := .ok "6ba7b810-9dad-41d1-80b4-00c04fd430c8"
  arrivals := [SIGUSR1, SIGTERM, SIGINT]
  maintainerReceiving := true

/-- As `envUp`, but the maintainer is not receiving from its signal channel, as
when `maintainer.Run` keeps returning errors. -/
def envMaintainerIdle : Env := { envUp with maintainerReceiving := false }

/-- The flags of `flagsLinux` with a listen address that leaves the port to the
operating system. -/
def flagsPortZero : Flags := { flagsLinux with listenAddr := "127.0.0.1:0" }

/-- As `envUp`, but the listener is bound to the port the operating system has
picked. -/
def envPortZero : Env := { envUp with BoundAddr := fun _ _ => "127.0.0.1:49152" }

/-- As `envUp`, but no identity can be generated. -/
def envNoRandom : Env := { envUp with NewV4 := .error "EOF" }

/-- What `startup flagsLinux envUp` hands to the signal loop. -/
def startedLinux : Started where
  taskRep := ⟨⟨"http://0.0.0.0:20515"⟩, "linux64", "http://127.0.0.1:1700"⟩
  lrpRep := ⟨"linux64", "http://127.0.0.1:1700"⟩
  listener := ⟨"tcp", "0.0.0.0:20515", "0.0.0.0:20515"⟩
  apiHandler := ⟨some .taskcomplete, none⟩
  repPresence := ⟨"6ba7b810-9dad-41d1-80b4-00c04fd430c8", "linux64"⟩

/-- Results of `maintainer.Run`: two failures, then a clean return. -/
def runTwiceFailing : Nat → Option String :=
  fun k => if k < 2 then some "lease contested" else none

/-- Results of `maintainer.Run`: a failure every time. -/
def runAlwaysFailing : Nat → Option String :=
  fun _ => some "store unavailable"

/-- A Task of another stack. -/
def taskOther : Task := ⟨"task-b", "windows", false, "", ""⟩

/-- The scheduler `main` constructs from `flagsLinux`, with a serialisation that
gives `taskA` the bytes `metadataA`. -/
def scheduler : task_scheduler.TaskScheduler where
  callbackGenerator := startedLinux.taskRep.callbackGenerator
  stack := startedLinux.taskRep.stack
  callbackPath := "/task_completed"
  marshal t := if t.Guid = "task-a" then metadataA else []

/-- A feed in which `taskA` is desired and nothing else is known. -/
def feedA : task_scheduler.Feed :=
  fun g => if g = "task-a" then some ⟨taskA, .Pending⟩ else none

/-- The watch delivers `taskA`, a Task of another stack, and `taskA` again. -/
def deliveredA : List Task := [taskA, taskOther, taskA]

/-- An execution agent that accepts every request. -/
def agentUp : task_scheduler.ContainerRequest → Option String := fun _ => none

/-- What `startup flagsPortZero envPortZero` hands to the signal loop. -/
def startedPortZero : Started where
  taskRep := ⟨⟨"http://127.0.0.1:0"⟩, "linux64", "http://127.0.0.1:1700"⟩
  lrpRep := ⟨"linux64", "http://127.0.0.1:1700"⟩
  listener := ⟨"tcp", "127.0.0.1:0", "127.0.0.1:49152"⟩
  apiHandler := ⟨some .taskcomplete, none⟩
  repPresence := ⟨"6ba7b810-9dad-41d1-80b4-00c04fd430c8", "linux64"⟩

end Examples

/-! ## Theorems on the completion callback handler -/

namespace taskcomplete

/-- C1: when the body parses as a run result and its metadata parses as a Task,
`ServeHTTP` calls `CompleteTask` exactly once, on the feed as it found it, with
the decoded Task and the `Failed`, `FailureReason` and `Result` fields of the
run result as they were parsed. -/
theorem ServeHTTP_completes_task_once {σ : Type} (h : handler σ) (feed : σ) (r : Request)
    (runResult : ContainerRunResult) (task : Task)
    (hbody : h.dec.NewContainerRunResultFromJSON r.Body = .ok runResult)
    (hmeta : h.dec.UnmarshalTask runResult.Metadata = .ok task) :
    (h.ServeHTTP (World.start feed) r).completeCalls =
        [⟨task, runResult.Failed, runResult.FailureReason, runResult.Result⟩] ∧
      (h.ServeHTTP (World.start feed) r).feed =
        (h.bbs.CompleteTask feed task runResult.Failed runResult.FailureReason
          runResult.Result).1 := by
  simp [handler.ServeHTTP, World.start, hbody, hmeta]

/-- Witness of C1: the callback about Task A with failed = true, reason "oom" and
an empty result gives the single call `CompleteTask(taskA, true, "oom", "")`. -/
theorem ServeHTTP_completes_task_once_witness :
    (Examples.handlerA.ServeHTTP (World.start []) ⟨Examples.bodyA, none⟩).completeCalls =
        [⟨Examples.taskA, true, "oom", ""⟩] ∧
      (Examples.handlerA.ServeHTTP (World.start []) ⟨Examples.bodyA, none⟩).feed =
        (Examples.handlerA.bbs.CompleteTask [] Examples.taskA true "oom" "").1 :=
  ServeHTTP_completes_task_once Examples.handlerA [] ⟨Examples.bodyA, none⟩
    ⟨true, "oom", "", Examples.metadataA⟩ Examples.taskA rfl rfl

/-- C2: when the body does not parse as a run result, `ServeHTTP` writes status
400, so that 400 is what is sent, calls `CompleteTask` not at all and leaves the
feed as it was. -/
theorem ServeHTTP_bad_body_rejected {σ : Type} (h : handler σ) (feed : σ) (r : Request)
    (err : String) (hbody : h.dec.NewContainerRunResultFromJSON r.Body = .error err) :
    (h.ServeHTTP (World.start feed) r).w.status = some 400 ∧
      (h.ServeHTTP (World.start feed) r).w.sentStatus = 400 ∧
      (h.ServeHTTP (World.start feed) r).completeCalls = [] ∧
      (h.ServeHTTP (World.start feed) r).feed = feed := by
  simp [handler.ServeHTTP, World.start, hbody, ResponseWriter.WriteHeader,
    ResponseWriter.fresh, ResponseWriter.sentStatus, StatusBadRequest]

/-- Witness of C2: a body that is not a run result. -/
theorem ServeHTTP_bad_body_rejected_witness :
    (Examples.handlerA.ServeHTTP (World.start []) ⟨Examples.bodyGarbage, none⟩).w.status
        = some 400 ∧
      (Examples.handlerA.ServeHTTP (World.start []) ⟨Examples.bodyGarbage, none⟩).w.sentStatus
        = 400 ∧
      (Examples.handlerA.ServeHTTP (World.start []) ⟨Examples.bodyGarbage, none⟩).completeCalls
        = [] ∧
      (Examples.handlerA.ServeHTTP (World.start []) ⟨Examples.bodyGarbage, none⟩).feed = [] :=
  ServeHTTP_bad_body_rejected Examples.handlerA [] ⟨Examples.bodyGarbage, none⟩
    "invalid character" rfl

/-- C3: when the body parses as a run result but its metadata does not parse as
a Task, `ServeHTTP` calls `CompleteTask` not at all, leaves the feed as it was,
and leaves the response writer untouched: no status, no body, so that what is
sent is the default 200. -/
theorem ServeHTTP_bad_metadata_dropped {σ : Type} (h : handler σ) (feed : σ) (r : Request)
    (runResult : ContainerRunResult) (err : String)
    (hbody : h.dec.NewContainerRunResultFromJSON r.Body = .ok runResult)
    (hmeta : h.dec.UnmarshalTask runResult.Metadata = .error err) :
    (h.ServeHTTP (World.start feed) r).completeCalls = [] ∧
      (h.ServeHTTP (World.start feed) r).feed = feed ∧
      (h.ServeHTTP (World.start feed) r).w.status = none ∧
      (h.ServeHTTP (World.start feed) r).w.body = [] ∧
      (h.ServeHTTP (World.start feed) r).w.sentStatus = 200 := by
  simp [handler.ServeHTTP, World.start, hbody, hmeta, ResponseWriter.fresh,
    ResponseWriter.sentStatus]

/-- Witness of C3: a run result whose metadata is empty. -/
theorem ServeHTTP_bad_metadata_dropped_witness :
    (Examples.handlerA.ServeHTTP (World.start []) ⟨Examples.bodyNoTask, none⟩).completeCalls
        = [] ∧
      (Examples.handlerA.ServeHTTP (World.start []) ⟨Examples.bodyNoTask, none⟩).feed = [] ∧
      (Examples.handlerA.ServeHTTP (World.start []) ⟨Examples.bodyNoTask, none⟩).w.status
        = none ∧
      (Examples.handlerA.ServeHTTP (World.start []) ⟨Examples.bodyNoTask, none⟩).w.body = [] ∧
      (Examples.handlerA.ServeHTTP (World.start []) ⟨Examples.bodyNoTask, none⟩).w.sentStatus
        = 200 :=
  ServeHTTP_bad_metadata_dropped Examples.handlerA [] ⟨Examples.bodyNoTask, none⟩
    ⟨false, "", "done", []⟩ "unexpected end of JSON input" rfl rfl

/-- C10: the response does not depend on what `CompleteTask` does. With the same
decoders, two feeds of any behaviour get the same response writer for every
request; when body and metadata both parse the writer is left without status
and without body and `CompleteTask` was called once, whatever it returned; and
status 400 is written exactly when the body fails to parse. -/
theorem ServeHTTP_response_ignores_CompleteTask {σ : Type} (dec : Decoders)
    (b b' : RepBBS σ) (feed : σ) (r : Request) :
    (handler.ServeHTTP ⟨b, dec⟩ (World.start feed) r).w =
        (handler.ServeHTTP ⟨b', dec⟩ (World.start feed) r).w ∧
      (∀ runResult task, dec.NewContainerRunResultFromJSON r.Body = .ok runResult →
        dec.UnmarshalTask runResult.Metadata = .ok task →
        (handler.ServeHTTP ⟨b, dec⟩ (World.start feed) r).w = ResponseWriter.fresh ∧
        (handler.ServeHTTP ⟨b, dec⟩ (World.start feed) r).completeCalls.length = 1 ∧
        (handler.ServeHTTP ⟨b, dec⟩ (World.start feed) r).completeErrs =
          [(b.CompleteTask feed task runResult.Failed runResult.FailureReason
            runResult.Result).2]) ∧
      ((handler.ServeHTTP ⟨b, dec⟩ (World.start feed) r).w.status = some 400 ↔
        ∃ err, dec.NewContainerRunResultFromJSON r.Body = .error err) := by
  refine ⟨?_, ?_, ?_⟩
  · cases hb : dec.NewContainerRunResultFromJSON r.Body with
    | error e => simp [handler.ServeHTTP, hb]
    | ok rr =>
      cases hm : dec.UnmarshalTask rr.Metadata <;> simp [handler.ServeHTTP, hb, hm]
  · intro rr t hb hm
    simp [handler.ServeHTTP, World.start, hb, hm]
  · cases hb : dec.NewContainerRunResultFromJSON r.Body with
    | error e =>
      simp [handler.ServeHTTP, World.start, hb, ResponseWriter.WriteHeader,
        ResponseWriter.fresh, StatusBadRequest]
    | ok rr =>
      cases hm : dec.UnmarshalTask rr.Metadata <;>
        simp [handler.ServeHTTP, World.start, hb, hm, ResponseWriter.fresh]

/-- Witness of C10: the callback about Task A, once against a feed that records
the completion and once against a feed whose `CompleteTask` fails. -/
theorem ServeHTTP_response_ignores_CompleteTask_witness :
    (handler.ServeHTTP ⟨Examples.bbsFailing, Examples.decoders⟩ (World.start [])
        ⟨Examples.bodyA, none⟩).w = ResponseWriter.fresh ∧
      (handler.ServeHTTP ⟨Examples.bbsFailing, Examples.decoders⟩ (World.start [])
        ⟨Examples.bodyA, none⟩).completeCalls.length = 1 ∧
      (handler.ServeHTTP ⟨Examples.bbsFailing, Examples.decoders⟩ (World.start [])
        ⟨Examples.bodyA, none⟩).completeErrs = [some "store unavailable"] :=
  (ServeHTTP_response_ignores_CompleteTask Examples.decoders Examples.bbsFailing
    Examples.bbsRecording [] ⟨Examples.bodyA, none⟩).2.1
    ⟨true, "oom", "", Examples.metadataA⟩ Examples.taskA rfl rfl

end taskcomplete

/-! ## Theorems on `main` -/

/-- The calls of `main` are those of `startup` followed by those of the signal
loop, unless `startup` has ended the process. -/
theorem main_eq (flags : Flags) (env : Env) :
    main flags env =
      match (startup flags env).2 with
      | .error h => ((startup flags env).1, .error h)
      | .ok _ =>
        ((startup flags env).1 ++ (signalLoop env.maintainerReceiving [] env.arrivals).1,
          (signalLoop env.maintainerReceiving [] env.arrivals).2) := by
  simp only [main, bind, Proc.bind]
  cases (startup flags env).2 <;> rfl

/-- Signals other than SIGINT and SIGTERM never reach `main`: they only change
what the buffer of `maintainSignals` holds. -/
theorem signalLoop_skip (receiving : Bool) (pre rest buf : List Signal)
    (hpre : ∀ s ∈ pre, s ≠ SIGINT ∧ s ≠ SIGTERM) :
    signalLoop receiving buf (pre ++ rest) =
      signalLoop receiving (pre.foldl (deliverMaintain receiving) buf) rest := by
  induction pre generalizing buf with
  | nil => rfl
  | cons a l ih =>
    have ha := hpre a (List.mem_cons_self a l)
    have hl : ∀ s ∈ l, s ≠ SIGINT ∧ s ≠ SIGTERM :=
      fun s hs => hpre s (List.mem_cons_of_mem a hs)
    have hn : a ∉ notified .signals := by
      simp [notified, ha.1, ha.2]
    simp only [List.cons_append, signalLoop, hn, if_false, List.foldl_cons]
    exact ih _ hl

/-- While no SIGINT or SIGTERM arrives `main` makes no call. -/
theorem signalLoop_waiting (receiving : Bool) (sigs buf : List Signal)
    (h : ∀ s ∈ sigs, s ≠ SIGINT ∧ s ≠ SIGTERM) :
    signalLoop receiving buf sigs = ([], .ok ()) := by
  have := signalLoop_skip receiving sigs [] buf h
  rw [List.append_nil] at this
  rw [this]
  rfl

/-- With the maintainer receiving, a SIGINT or SIGTERM shuts the process down. -/
theorem signalLoop_shutdown (buf : List Signal) (sig : Signal) (rest : List Signal)
    (hsig : sig = SIGINT ∨ sig = SIGTERM) :
    signalLoop true buf (sig :: rest) =
      ([.recv .signals sig, .taskRepStop, .lrpRepStop, .send .maintainSignals sig, .osExit 0],
        .error (.exited 0)) := by
  rcases hsig with rfl | rfl <;>
    simp [signalLoop, deliverMaintain, notified, chanSize, bind, Proc.bind, call, osExit,
      SIGINT, SIGTERM]

/-- With the maintainer not receiving, the buffer of `maintainSignals` is full
when `main` comes to its send, and `main` blocks there. -/
theorem signalLoop_blocked (buf : List Signal) (sig : Signal) (rest : List Signal)
    (hsig : sig = SIGINT ∨ sig = SIGTERM) :
    signalLoop false buf (sig :: rest) =
      ([.recv .signals sig, .taskRepStop, .lrpRepStop], .error (.blocked .maintainSignals)) := by
  have hfull : ¬ (deliverMaintain false buf sig).length < chanSize := by
    have hn : sig ∈ notified .maintainSignals := by
      rcases hsig with rfl | rfl <;> simp [notified]
    unfold deliverMaintain
    simp only [Bool.false_eq_true, if_false]
    by_cases hb : buf.length < chanSize
    · rw [if_pos ⟨hn, hb⟩]
      simp [chanSize]
    · rw [if_neg (fun h => hb h.2)]
      exact hb
  have hs : sig ∈ notified .signals := by
    rcases hsig with rfl | rfl <;> simp [notified]
  simp [signalLoop, hs, hsig, hfull, bind, Proc.bind, call, blockedSend]

/-- The signal loop makes no call but receiving, the two `Stop`s, the forwarding
and `os.Exit(0)`. -/
theorem signalLoop_events (receiving : Bool) (sigs buf : List Signal) (e : Event)
    (h : e ∈ (signalLoop receiving buf sigs).1) :
    (∃ s, e = .recv .signals s) ∨ e = .taskRepStop ∨ e = .lrpRepStop ∨
      (∃ s, e = .send .maintainSignals s) ∨ e = .osExit 0 := by
  induction sigs generalizing buf with
  | nil => simp [signalLoop, Proc.pure] at h
  | cons a l ih =>
    by_cases hn : a ∈ notified .signals
    · by_cases ha : a = SIGINT ∨ a = SIGTERM
      · by_cases hb : (deliverMaintain receiving buf a).length < chanSize
        · simp [signalLoop, bind, Proc.bind, call, osExit, hn, ha, hb] at h
          rcases h with h | h | h | h | h <;> simp [h]
        · simp [signalLoop, bind, Proc.bind, call, blockedSend, hn, ha, hb] at h
          rcases h with h | h | h <;> simp [h]
      · simp [signalLoop, bind, Proc.bind, call, hn, ha] at h
        rcases h with h | h
        · exact Or.inl ⟨a, h⟩
        · exact ih _ h
    · simp only [signalLoop, hn, if_false] at h
      exact ih _ h

/-- A call of `main` is a call of `startup` or of the signal loop. -/
theorem main_events (flags : Flags) (env : Env) (e : Event) (h : e ∈ (main flags env).1) :
    e ∈ (startup flags env).1 ∨
      e ∈ (signalLoop env.maintainerReceiving [] env.arrivals).1 := by
  rw [main_eq] at h
  cases hs : (startup flags env).2 with
  | error x => rw [hs] at h; exact Or.inl h
  | ok st => rw [hs] at h; exact List.mem_append.mp h

theorem startup_fatal (flags : Flags) (env : Env)
    (h : flags.stack = "" ∨ env.Connect (flags.etcdCluster.splitOn ",") ≠ none ∨
      env.Listen "tcp" flags.listenAddr ≠ none) :
    (startup flags env).2 = .error (.exited 1) ∧
      (startup flags env).1.getLast? = some (.osExit 1) ∧
      Event.taskRepRun ∉ (startup flags env).1 ∧
      Event.lrpRepRun ∉ (startup flags env).1 ∧
      Event.goMaintainLoop ∉ (startup flags env).1 ∧
      (∀ k, Event.maintainerRun k ∉ (startup flags env).1) ∧
      (flags.stack = "" → Event.Connect ∉ (startup flags env).1) := by
  unfold startup
  simp only [bind, Proc.bind, call, Proc.pure, logFatalf, osExit, goPanic, pure]
  cases h1 : env.GetLogLevel flags.logLevel <;> simp
  by_cases h2 : flags.stack = "" <;> simp [h2]
  cases h3 : env.Connect (flags.etcdCluster.splitOn ",") <;> simp
  cases h4 : env.NewServer <;> simp
  cases h5 : env.Listen "tcp" flags.listenAddr <;> simp
  simp_all

/-- What `startup` has found and built when it reaches the signal loop. -/
theorem startup_ok (flags : Flags) (env : Env) (st : Started)
    (h : (startup flags env).2 = .ok st) :
    flags.stack ≠ "" ∧ env.Connect (flags.etcdCluster.splitOn ",") = none ∧
      env.NewServer = none ∧ env.Listen "tcp" flags.listenAddr = none ∧
      env.TaskRun = none ∧ env.NewV4 = .ok st.repPresence.RepID ∧
      st = ⟨⟨⟨"http://" ++ flags.listenAddr⟩, flags.stack, flags.executorURL⟩,
        ⟨flags.stack, flags.executorURL⟩,
        ⟨"tcp", flags.listenAddr, env.BoundAddr "tcp" flags.listenAddr⟩,
        ⟨some .taskcomplete, none⟩,
        ⟨st.repPresence.RepID, flags.stack⟩⟩ ∧
      Event.taskSchedulerNew st.taskRep ∈ (startup flags env).1 ∧
      Event.lrpSchedulerNew st.lrpRep ∈ (startup flags env).1 ∧
      Event.Listen "tcp" flags.listenAddr ∈ (startup flags env).1 ∧
      Event.goServe st.listener st.apiHandler ∈ (startup flags env).1 ∧
      Event.NewV4 ∈ (startup flags env).1 ∧
      Event.maintainNew st.repPresence flags.heartbeatInterval ∈ (startup flags env).1 := by
  revert h
  unfold startup
  simp only [bind, Proc.bind, call, Proc.pure, logFatalf, osExit, goPanic, pure]
  cases h1 : env.GetLogLevel flags.logLevel <;> simp
  by_cases h2 : flags.stack = "" <;> simp [h2]
  cases h3 : env.Connect (flags.etcdCluster.splitOn ",") <;> simp
  cases h4 : env.NewServer <;> simp
  cases h5 : env.Listen "tcp" flags.listenAddr <;> simp
  cases h6 : env.TaskRun <;> simp
  cases h7 : env.NewV4 <;> simp
  intro h
  subst h
  simp

/-- The arguments of the constructors and of `net.Listen`, wherever `startup`
calls them. -/
theorem startup_args (flags : Flags) (env : Env) :
    (∀ a, Event.taskSchedulerNew a ∈ (startup flags env).1 →
        a = ⟨⟨"http://" ++ flags.listenAddr⟩, flags.stack, flags.executorURL⟩) ∧
      (∀ a, Event.lrpSchedulerNew a ∈ (startup flags env).1 →
        a = ⟨flags.stack, flags.executorURL⟩) ∧
      (∀ host, Event.NewRequestGenerator host ∈ (startup flags env).1 →
        host = "http://" ++ flags.listenAddr) ∧
      (∀ n a, Event.Listen n a ∈ (startup flags env).1 → n = "tcp" ∧ a = flags.listenAddr) ∧
      (∀ l h, Event.goServe l h ∈ (startup flags env).1 →
        l = ⟨"tcp", flags.listenAddr, env.BoundAddr "tcp" flags.listenAddr⟩ ∧
        h = ⟨some .taskcomplete, none⟩) ∧
      (∀ p hb, Event.maintainNew p hb ∈ (startup flags env).1 →
        env.NewV4 = .ok p.RepID ∧ p.Stack = flags.stack ∧ hb = flags.heartbeatInterval) ∧
      (Event.goMaintainLoop ∈ (startup flags env).1 → ∃ u, env.NewV4 = .ok u) := by
  unfold startup
  simp only [bind, Proc.bind, call, Proc.pure, logFatalf, osExit, goPanic, pure]
  cases h1 : env.GetLogLevel flags.logLevel <;> simp
  by_cases h2 : flags.stack = "" <;> simp [h2]
  cases h3 : env.Connect (flags.etcdCluster.splitOn ",") <;> simp
  cases h4 : env.NewServer <;> simp
  cases h5 : env.Listen "tcp" flags.listenAddr <;> simp
  cases h6 : env.TaskRun <;> simp
  cases h7 : env.NewV4 <;> simp

/-- C4: what `main` does on the first SIGINT or SIGTERM that arrives once it is
in its signal loop, signals other than these two having caused no call. With
the maintainer receiving from its channel, `main` calls, in this order, `Stop`
on the Task scheduler, `Stop` on the LRP scheduler, the send of that same signal
on the maintainer's channel and `os.Exit(0)`. With the maintainer not
receiving, `main` calls both `Stop`s and then blocks in the send, the one
buffer slot being taken by the delivery of the runtime: the process does not
exit and `os.Exit` is never called. -/
theorem main_signal_shutdown (flags : Flags) (env : Env) (st : Started)
    (pre : List Signal) (sig : Signal) (rest : List Signal)
    (hstart : (startup flags env).2 = .ok st)
    (harrivals : env.arrivals = pre ++ sig :: rest)
    (hpre : ∀ s ∈ pre, s ≠ SIGINT ∧ s ≠ SIGTERM) (hsig : sig = SIGINT ∨ sig = SIGTERM) :
    (env.maintainerReceiving = true →
        main flags env =
          ((startup flags env).1 ++
            [.recv .signals sig, .taskRepStop, .lrpRepStop, .send .maintainSignals sig,
              .osExit 0],
            .error (.exited 0))) ∧
      (env.maintainerReceiving = false →
        main flags env =
          ((startup flags env).1 ++ [.recv .signals sig, .taskRepStop, .lrpRepStop],
            .error (.blocked .maintainSignals)) ∧
        (∀ code, Event.osExit code ∉ (main flags env).1) ∧
        (main flags env).2 ≠ .error (.exited 0)) := by
  have hnoexit : ∀ code, Event.osExit code ∉ (startup flags env).1 := by
    intro code
    revert hstart
    unfold startup
    simp only [bind, Proc.bind, call, Proc.pure, logFatalf, osExit, goPanic, pure]
    cases h1 : env.GetLogLevel flags.logLevel <;> simp
    by_cases h2 : flags.stack = "" <;> simp [h2]
    cases h3 : env.Connect (flags.etcdCluster.splitOn ",") <;> simp
    cases h4 : env.NewServer <;> simp
    cases h5 : env.Listen "tcp" flags.listenAddr <;> simp
    cases h6 : env.TaskRun <;> simp
    cases h7 : env.NewV4 <;> simp
  constructor
  · intro hrecv
    rw [main_eq, hstart, harrivals, hrecv, signalLoop_skip true pre (sig :: rest) [] hpre,
      signalLoop_shutdown _ sig rest hsig]
  · intro hidle
    have hm : main flags env =
        ((startup flags env).1 ++ [.recv .signals sig, .taskRepStop, .lrpRepStop],
          .error (.blocked .maintainSignals)) := by
      rw [main_eq, hstart, harrivals, hidle, signalLoop_skip false pre (sig :: rest) [] hpre,
        signalLoop_blocked _ sig rest hsig]
    refine ⟨hm, ?_, ?_⟩
    · intro code hmem
      rw [hm] at hmem
      rcases List.mem_append.mp hmem with h | h
      · exact hnoexit code h
      · simp at h
    · rw [hm]
      simp

/-- Witness of C4: SIGUSR1 arrives first and causes no call of `main`, SIGTERM
arrives next; with the maintainer receiving the process exits with code 0,
with the maintainer not receiving `main` blocks in its send. -/
theorem main_signal_shutdown_witness :
    main Examples.flagsLinux Examples.envUp =
        ((startup Examples.flagsLinux Examples.envUp).1 ++
          [.recv .signals SIGTERM, .taskRepStop, .lrpRepStop,
            .send .maintainSignals SIGTERM, .osExit 0],
          .error (.exited 0)) ∧
      (main Examples.flagsLinux Examples.envMaintainerIdle =
          ((startup Examples.flagsLinux Examples.envMaintainerIdle).1 ++
            [.recv .signals SIGTERM, .taskRepStop, .lrpRepStop],
            .error (.blocked .maintainSignals)) ∧
        (∀ code, Event.osExit code ∉ (main Examples.flagsLinux Examples.envMaintainerIdle).1) ∧
        (main Examples.flagsLinux Examples.envMaintainerIdle).2 ≠ .error (.exited 0)) :=
  ⟨(main_signal_shutdown Examples.flagsLinux Examples.envUp Examples.startedLinux
      [SIGUSR1] SIGTERM [SIGINT] rfl rfl (by decide) (Or.inr rfl)).1 rfl,
    (main_signal_shutdown Examples.flagsLinux Examples.envMaintainerIdle Examples.startedLinux
      [SIGUSR1] SIGTERM [SIGINT] rfl rfl (by decide) (Or.inr rfl)).2 rfl⟩

/-- C5: when the stack flag is empty, or connecting to the store fails, or
binding the listen address fails, `main` ends in `os.Exit(1)` without having
called `Run` on either scheduler and without having started the goroutine that
runs the presence maintainer; with an empty stack it ends before the store
adapter is made or connected. -/
theorem main_fatal_startup (flags : Flags) (env : Env)
    (h : flags.stack = "" ∨ env.Connect (flags.etcdCluster.splitOn ",") ≠ none ∨
      env.Listen "tcp" flags.listenAddr ≠ none) :
    (main flags env).2 = .error (.exited 1) ∧
      (main flags env).1.getLast? = some (.osExit 1) ∧
      Event.taskRepRun ∉ (main flags env).1 ∧
      Event.lrpRepRun ∉ (main flags env).1 ∧
      Event.goMaintainLoop ∉ (main flags env).1 ∧
      (∀ k, Event.maintainerRun k ∉ (main flags env).1) ∧
      (flags.stack = "" → Event.Connect ∉ (main flags env).1) := by
  have hf := startup_fatal flags env h
  have hm : main flags env = ((startup flags env).1, .error (.exited 1)) := by
    rw [main_eq, hf.1]
  rw [hm]
  exact ⟨rfl, hf.2.1, hf.2.2.1, hf.2.2.2.1, hf.2.2.2.2.1, hf.2.2.2.2.2.1, hf.2.2.2.2.2.2⟩

/-- Witness of C5: the default flags, which leave the stack empty. -/
theorem main_fatal_startup_witness :
    (main Flags.defaults Examples.envUp).2 = .error (.exited 1) ∧
      (main Flags.defaults Examples.envUp).1.getLast? = some (.osExit 1) ∧
      Event.taskRepRun ∉ (main Flags.defaults Examples.envUp).1 ∧
      Event.lrpRepRun ∉ (main Flags.defaults Examples.envUp).1 ∧
      Event.goMaintainLoop ∉ (main Flags.defaults Examples.envUp).1 ∧
      (∀ k, Event.maintainerRun k ∉ (main Flags.defaults Examples.envUp).1) ∧
      (Flags.defaults.stack = "" → Event.Connect ∉ (main Flags.defaults Examples.envUp).1) :=
  main_fatal_startup Flags.defaults Examples.envUp (Or.inl rfl)

/-- C8, as stated, fails: with `listenAddr` set to `127.0.0.1:0` the operating
system picks the port, here 49152, and the base of the callback generator stays
`http://127.0.0.1:0`, which is not the address of the listener `main` serves
the handler on. -/
theorem callback_base_port_zero :
    (startup Examples.flagsPortZero Examples.envPortZero).2 = .ok Examples.startedPortZero ∧
      Event.goServe Examples.startedPortZero.listener Examples.startedPortZero.apiHandler ∈
        (main Examples.flagsPortZero Examples.envPortZero).1 ∧
      Examples.startedPortZero.listener.bound = "127.0.0.1:49152" ∧
      Examples.startedPortZero.taskRep.callbackGenerator.host = "http://127.0.0.1:0" ∧
      Examples.startedPortZero.taskRep.callbackGenerator.host ≠
        "http://" ++ Examples.startedPortZero.listener.bound := by
  refine ⟨rfl, ?_, rfl, rfl, by decide⟩
  rw [main_eq]
  have hst : (startup Examples.flagsPortZero Examples.envPortZero).2 =
      .ok Examples.startedPortZero := rfl
  rw [hst]
  exact List.mem_append_left _
    (startup_ok Examples.flagsPortZero Examples.envPortZero Examples.startedPortZero
      hst).2.2.2.2.2.2.2.2.2.2.1

/-- C8, amended: the request generator `main` hands to the Task scheduler has
the base URL `"http://"` followed by the `listenAddr` flag, and that flag is the
address `main` passes to `net.Listen`; no other base and no other address
occurs in any run. What `main` serves is the listener `net.Listen` returned for
that flag, with the API server built over the task-complete handler. A run that
reaches the signal loop has made the generator, bound the address and started
serving, and when the address its listener is bound to is the flag itself, the
base of the generator is `"http://"` followed by the address of the listener. -/
theorem callback_base_is_listen_flag (flags : Flags) (env : Env) :
    (∀ a, Event.taskSchedulerNew a ∈ (main flags env).1 →
        a.callbackGenerator.host = "http://" ++ flags.listenAddr) ∧
      (∀ host, Event.NewRequestGenerator host ∈ (main flags env).1 →
        host = "http://" ++ flags.listenAddr) ∧
      (∀ n a, Event.Listen n a ∈ (main flags env).1 → n = "tcp" ∧ a = flags.listenAddr) ∧
      (∀ l h, Event.goServe l h ∈ (main flags env).1 →
        l = ⟨"tcp", flags.listenAddr, env.BoundAddr "tcp" flags.listenAddr⟩ ∧
        h = ⟨some .taskcomplete, none⟩) ∧
      (∀ st, (startup flags env).2 = .ok st →
        st.taskRep.callbackGenerator.host = "http://" ++ flags.listenAddr ∧
        st.listener = ⟨"tcp", flags.listenAddr, env.BoundAddr "tcp" flags.listenAddr⟩ ∧
        st.apiHandler = ⟨some .taskcomplete, none⟩ ∧
        Event.taskSchedulerNew st.taskRep ∈ (main flags env).1 ∧
        Event.Listen "tcp" flags.listenAddr ∈ (main flags env).1 ∧
        Event.goServe st.listener st.apiHandler ∈ (main flags env).1 ∧
        (st.listener.bound = flags.listenAddr →
          st.taskRep.callbackGenerator.host = "http://" ++ st.listener.bound)) := by
  have ha := startup_args flags env
  refine ⟨?_, ?_, ?_, ?_, ?_⟩
  · intro a h
    rcases main_events flags env _ h with h | h
    · rw [ha.1 a h]
    · have := signalLoop_events _ _ _ _ h
      simp at this
  · intro host h
    rcases main_events flags env _ h with h | h
    · exact ha.2.2.1 host h
    · have := signalLoop_events _ _ _ _ h
      simp at this
  · intro n a h
    rcases main_events flags env _ h with h | h
    · exact ha.2.2.2.1 n a h
    · have := signalLoop_events _ _ _ _ h
      simp at this
  · intro l hd h
    rcases main_events flags env _ h with h | h
    · exact ha.2.2.2.2.1 l hd h
    · have := signalLoop_events _ _ _ _ h
      simp at this
  · intro st hst
    have hs := startup_ok flags env st hst
    have hsub : ∀ e, e ∈ (startup flags env).1 → e ∈ (main flags env).1 := by
      intro e he
      rw [main_eq, hst]
      exact List.mem_append_left _ he
    have hst' := hs.2.2.2.2.2.2.1
    have hhost : st.taskRep.callbackGenerator.host = "http://" ++ flags.listenAddr := by
      rw [hst']
    refine ⟨hhost, ?_, ?_, hsub _ hs.2.2.2.2.2.2.2.1, hsub _ hs.2.2.2.2.2.2.2.2.2.1,
      hsub _ hs.2.2.2.2.2.2.2.2.2.2.1, ?_⟩
    · rw [hst']
    · rw [hst']
    · intro hbound
      rw [hhost, hbound]

/-- Witness of C8, amended: with the default `listenAddr` and a listener bound to
the address asked for, the base is `http://0.0.0.0:20515` and the handler is
served on `0.0.0.0:20515`. -/
theorem callback_base_is_listen_flag_witness :
    Examples.startedLinux.taskRep.callbackGenerator.host =
        "http://" ++ Examples.flagsLinux.listenAddr ∧
      Examples.startedLinux.listener =
        ⟨"tcp", Examples.flagsLinux.listenAddr,
          Examples.envUp.BoundAddr "tcp" Examples.flagsLinux.listenAddr⟩ ∧
      Examples.startedLinux.apiHandler = ⟨some .taskcomplete, none⟩ ∧
      Event.taskSchedulerNew Examples.startedLinux.taskRep ∈
        (main Examples.flagsLinux Examples.envUp).1 ∧
      Event.Listen "tcp" Examples.flagsLinux.listenAddr ∈
        (main Examples.flagsLinux Examples.envUp).1 ∧
      Event.goServe Examples.startedLinux.listener Examples.startedLinux.apiHandler ∈
        (main Examples.flagsLinux Examples.envUp).1 ∧
      (Examples.startedLinux.listener.bound = Examples.flagsLinux.listenAddr →
        Examples.startedLinux.taskRep.callbackGenerator.host =
          "http://" ++ Examples.startedLinux.listener.bound) :=
  (callback_base_is_listen_flag Examples.flagsLinux Examples.envUp).2.2.2.2
    Examples.startedLinux rfl

/-- C9: the presence record `main` gives to the maintainer carries as `RepID`
the identity that the call of `uuid.NewV4` of this run returned and as `Stack`
the stack flag, and both schedulers are constructed with that same stack; a run
that reaches the signal loop has called `NewV4` and constructed the maintainer
with such a record, and when `NewV4` fails no maintainer is constructed and the
goroutine that runs it is not started. -/
theorem presence_identity_and_stack (flags : Flags) (env : Env) :
    (∀ p hb, Event.maintainNew p hb ∈ (main flags env).1 →
        env.NewV4 = .ok p.RepID ∧ p.Stack = flags.stack) ∧
      (∀ a, Event.taskSchedulerNew a ∈ (main flags env).1 → a.stack = flags.stack) ∧
      (∀ a, Event.lrpSchedulerNew a ∈ (main flags env).1 → a.stack = flags.stack) ∧
      (∀ st, (startup flags env).2 = .ok st →
        env.NewV4 = .ok st.repPresence.RepID ∧
        st.repPresence.Stack = flags.stack ∧
        st.taskRep.stack = flags.stack ∧
        st.lrpRep.stack = flags.stack ∧
        Event.NewV4 ∈ (main flags env).1 ∧
        Event.maintainNew st.repPresence flags.heartbeatInterval ∈ (main flags env).1) ∧
      (∀ err, env.NewV4 = .error err →
        (∀ p hb, Event.maintainNew p hb ∉ (main flags env).1) ∧
        Event.goMaintainLoop ∉ (main flags env).1) := by
  have ha := startup_args flags env
  have hnew : ∀ p hb, Event.maintainNew p hb ∈ (main flags env).1 →
      env.NewV4 = .ok p.RepID ∧ p.Stack = flags.stack := by
    intro p hb h
    rcases main_events flags env _ h with h | h
    · exact ⟨(ha.2.2.2.2.2.1 p hb h).1, (ha.2.2.2.2.2.1 p hb h).2.1⟩
    · have := signalLoop_events _ _ _ _ h
      simp at this
  refine ⟨hnew, ?_, ?_, ?_, ?_⟩
  · intro a h
    rcases main_events flags env _ h with h | h
    · rw [ha.1 a h]
    · have := signalLoop_events _ _ _ _ h
      simp at this
  · intro a h
    rcases main_events flags env _ h with h | h
    · rw [ha.2.1 a h]
    · have := signalLoop_events _ _ _ _ h
      simp at this
  · intro st hst
    have hs := startup_ok flags env st hst
    have hsub : ∀ e, e ∈ (startup flags env).1 → e ∈ (main flags env).1 := by
      intro e he
      rw [main_eq, hst]
      exact List.mem_append_left _ he
    have hst' := hs.2.2.2.2.2.2.1
    refine ⟨hs.2.2.2.2.2.1, ?_, ?_, ?_, hsub _ hs.2.2.2.2.2.2.2.2.2.2.2.1,
      hsub _ hs.2.2.2.2.2.2.2.2.2.2.2.2⟩
    · rw [hst']
    · rw [hst']
    · rw [hst']
  · intro err herr
    constructor
    · intro p hb h
      have := (hnew p hb h).1
      rw [herr] at this
      cases this
    · intro h
      rcases main_events flags env _ h with h | h
      · obtain ⟨u, hu⟩ := ha.2.2.2.2.2.2 h
        rw [herr] at hu
        cases hu
      · have := signalLoop_events _ _ _ _ h
        simp at this

/-- Witness of C9: a run in which `NewV4` returns an identity, and the same run
with `NewV4` failing. -/
theorem presence_identity_and_stack_witness :
    (Examples.envUp.NewV4 = .ok Examples.startedLinux.repPresence.RepID ∧
        Examples.startedLinux.repPresence.Stack = Examples.flagsLinux.stack ∧
        Examples.startedLinux.taskRep.stack = Examples.flagsLinux.stack ∧
        Examples.startedLinux.lrpRep.stack = Examples.flagsLinux.stack ∧
        Event.NewV4 ∈ (main Examples.flagsLinux Examples.envUp).1 ∧
        Event.maintainNew Examples.startedLinux.repPresence
          Examples.flagsLinux.heartbeatInterval ∈ (main Examples.flagsLinux Examples.envUp).1) ∧
      ((∀ p hb, Event.maintainNew p hb ∉ (main Examples.flagsLinux Examples.envNoRandom).1) ∧
        Event.goMaintainLoop ∉ (main Examples.flagsLinux Examples.envNoRandom).1) :=
  ⟨(presence_identity_and_stack Examples.flagsLinux Examples.envUp).2.2.2.1
      Examples.startedLinux rfl,
    (presence_identity_and_stack Examples.flagsLinux Examples.envNoRandom).2.2.2.2 "EOF" rfl⟩

/-! ## Theorems on the presence loop -/

/-- While `Run` returns errors the loop goes on: after `fuel` iterations it has
made the calls `k`, ..., `k + fuel - 1` and has not reached its `break`. -/
theorem maintainLoop_failing (Run : Nat → Option String) (fuel k : Nat)
    (h : ∀ i, i < fuel → Run (k + i) ≠ none) :
    (maintainLoop Run fuel k).2 = false ∧
      runCalls (maintainLoop Run fuel k).1 = List.range' k fuel := by
  induction fuel generalizing k with
  | zero => simp [maintainLoop, runCalls]
  | succ f ih =>
    have h0 : Run k ≠ none := by simpa using h 0 (Nat.succ_pos f)
    have hrest : ∀ i, i < f → Run (k + 1 + i) ≠ none := by
      intro i hi
      have := h (i + 1) (Nat.succ_lt_succ hi)
      rwa [show k + (i + 1) = k + 1 + i by omega] at this
    obtain ⟨e, he⟩ := Option.ne_none_iff_exists'.mp h0
    have ih' := ih (k + 1) hrest
    simp only [runCalls] at ih'
    simp [maintainLoop, he, runCalls, List.range'_succ, ih'.1, ih'.2]

/-- After `n` failing calls and a clean one the loop has made exactly the calls
`k`, ..., `k + n` and has reached its `break`. -/
theorem maintainLoop_clean (Run : Nat → Option String) (n fuel k : Nat)
    (hfail : ∀ i, i < n → Run (k + i) ≠ none) (hclean : Run (k + n) = none)
    (hfuel : n < fuel) :
    (maintainLoop Run fuel k).2 = true ∧
      runCalls (maintainLoop Run fuel k).1 = List.range' k (n + 1) := by
  induction n generalizing fuel k with
  | zero =>
    obtain ⟨f, rfl⟩ : ∃ f, fuel = f + 1 := ⟨fuel - 1, by omega⟩
    have hc : Run k = none := by simpa using hclean
    simp [maintainLoop, hc, runCalls]
  | succ m ih =>
    obtain ⟨f, rfl⟩ : ∃ f, fuel = f + 1 := ⟨fuel - 1, by omega⟩
    have h0 : Run k ≠ none := by simpa using hfail 0 (Nat.succ_pos m)
    have hrest : ∀ i, i < m → Run (k + 1 + i) ≠ none := by
      intro i hi
      have := hfail (i + 1) (Nat.succ_lt_succ hi)
      rwa [show k + (i + 1) = k + 1 + i by omega] at this
    have hc : Run (k + 1 + m) = none := by
      rwa [show k + (m + 1) = k + 1 + m by omega] at hclean
    obtain ⟨e, he⟩ := Option.ne_none_iff_exists'.mp h0
    have ih' := ih f (k + 1) hrest hc (by omega)
    simp only [runCalls] at ih'
    simp [maintainLoop, he, runCalls, List.range'_succ (s := k) (n := m + 1), ih'.1, ih'.2]

/-- The loop reaches its `break` only by a call of `Run` that returns nil, all
calls before it having failed. -/
theorem maintainLoop_done (Run : Nat → Option String) (fuel k : Nat)
    (h : (maintainLoop Run fuel k).2 = true) :
    ∃ n, n < fuel ∧ Run (k + n) = none ∧ ∀ i, i < n → Run (k + i) ≠ none := by
  induction fuel generalizing k with
  | zero => simp [maintainLoop] at h
  | succ f ih =>
    cases hr : Run k with
    | none => exact ⟨0, Nat.succ_pos f, by simpa using hr, by intro i hi; omega⟩
    | some e =>
      simp [maintainLoop, hr] at h
      obtain ⟨n, hn, hc, hf⟩ := ih (k + 1) h
      refine ⟨n + 1, by omega, ?_, ?_⟩
      · rwa [show k + (n + 1) = k + 1 + n by omega]
      · intro i hi
        cases i with
        | zero => simp [hr]
        | succ j =>
          have := hf j (by omega)
          rwa [show k + (j + 1) = k + 1 + j by omega]

/-- The loop calls nothing but `maintainer.Run`, `logger.Errorf` and `make`. -/
theorem maintainLoop_events (Run : Nat → Option String) (fuel k : Nat) (e : Event)
    (h : e ∈ (maintainLoop Run fuel k).1) :
    (∃ i, e = .maintainerRun i) ∨ (∃ msg, e = .Errorf msg) ∨ e = .makeMaintainReady := by
  induction fuel generalizing k with
  | zero => simp [maintainLoop] at h
  | succ f ih =>
    cases hr : Run k with
    | none =>
      simp [maintainLoop, hr] at h
      exact Or.inl ⟨k, h⟩
    | some err =>
      simp [maintainLoop, hr] at h
      rcases h with h | h | h | h
      · exact Or.inl ⟨k, h⟩
      · exact Or.inr (Or.inl ⟨_, h⟩)
      · exact Or.inr (Or.inr h)
      · exact ih (k + 1) h

/-- C6: the presence loop never gives up on its own. For every sequence `Run` of
results of `maintainer.Run`: `n` failing calls followed by a clean one give
exactly the `n + 1` calls numbered 0 to `n`, after which the loop has ended; as
long as every call fails the loop has not ended, however many iterations are
looked at, and has made one call per iteration; the loop ends only after a call
that returned nil; and no call of the loop is `os.Exit` or a panic. -/
theorem maintainLoop_never_gives_up (Run : Nat → Option String) :
    (∀ n fuel, (∀ i, i < n → Run i ≠ none) → Run n = none → n < fuel →
        (maintainLoop Run fuel 0).2 = true ∧
        runCalls (maintainLoop Run fuel 0).1 = List.range (n + 1) ∧
        (runCalls (maintainLoop Run fuel 0).1).length = n + 1) ∧
      (∀ fuel, (∀ i, i < fuel → Run i ≠ none) →
        (maintainLoop Run fuel 0).2 = false ∧
        runCalls (maintainLoop Run fuel 0).1 = List.range fuel) ∧
      (∀ fuel, (maintainLoop Run fuel 0).2 = true →
        ∃ n, n < fuel ∧ Run n = none ∧ ∀ i, i < n → Run i ≠ none) ∧
      (∀ fuel e, e ∈ (maintainLoop Run fuel 0).1 →
        (∀ code, e ≠ .osExit code) ∧ (∀ msg, e ≠ .goPanic msg) ∧
        (∀ msg, e ≠ .logFatalf msg)) := by
  refine ⟨?_, ?_, ?_, ?_⟩
  · intro n fuel hfail hclean hfuel
    have h := maintainLoop_clean Run n fuel 0 (by simpa using hfail) (by simpa using hclean)
      hfuel
    refine ⟨h.1, ?_, ?_⟩
    · rw [h.2, List.range_eq_range']
    · rw [h.2]; simp
  · intro fuel hfail
    have h := maintainLoop_failing Run fuel 0 (by simpa using hfail)
    exact ⟨h.1, by rw [h.2, List.range_eq_range']⟩
  · intro fuel hdone
    obtain ⟨n, hn, hc, hf⟩ := maintainLoop_done Run fuel 0 hdone
    exact ⟨n, hn, by simpa using hc, by simpa using hf⟩
  · intro fuel e he
    rcases maintainLoop_events Run fuel 0 e he with ⟨i, h⟩ | ⟨m, h⟩ | h <;>
      simp [h]

/-- Witness of C6: two failing runs and a clean one give the three calls 0, 1
and 2; with every run failing, one hundred iterations have not ended the loop. -/
theorem maintainLoop_never_gives_up_witness :
    ((maintainLoop Examples.runTwiceFailing 5 0).2 = true ∧
        runCalls (maintainLoop Examples.runTwiceFailing 5 0).1 = List.range (2 + 1) ∧
        (runCalls (maintainLoop Examples.runTwiceFailing 5 0).1).length = 2 + 1) ∧
      ((maintainLoop Examples.runAlwaysFailing 100 0).2 = false ∧
        runCalls (maintainLoop Examples.runAlwaysFailing 100 0).1 = List.range 100) ∧
      (∃ n, n < 5 ∧ Examples.runTwiceFailing n = none ∧
        ∀ i, i < n → Examples.runTwiceFailing i ≠ none) :=
  ⟨(maintainLoop_never_gives_up Examples.runTwiceFailing).1 2 5
      (by intro i hi; simp [Examples.runTwiceFailing, hi]) (by decide) (by decide),
    (maintainLoop_never_gives_up Examples.runAlwaysFailing).2.1 100
      (by intro i _; simp [Examples.runAlwaysFailing]),
    (maintainLoop_never_gives_up Examples.runTwiceFailing).2.2.1 5 (by decide)⟩

/-! ## Theorems on the Task scheduler -/

namespace task_scheduler

/-- Handling a Task of another identity leaves the entry of `g` and the requests
issued for `g` as they were. -/
theorem handle_other (s : TaskScheduler) (agent : ContainerRequest → Option String)
    (w : SchedulerWorld) (e : Task) (g : String) (hne : e.Guid ≠ g) :
    (s.handle agent w e).feed g = w.feed g ∧
      (s.handle agent w e).issuedFor g = w.issuedFor g := by
  have hg : g ≠ e.Guid := fun h => hne h.symm
  unfold TaskScheduler.handle Feed.Claim
  cases hf : w.feed e.Guid with
  | none => simp
  | some en =>
    obtain ⟨t0, st⟩ := en
    cases st <;> simp
    cases ha : agent (s.request e) <;>
      simp [ha, Feed.Start, Feed.CompleteTask, Function.update, hg, SchedulerWorld.issuedFor,
        List.filter_append, hne]

/-- A claim on a Task that is not Pending is lost, and the Task is skipped. -/
theorem handle_lost (s : TaskScheduler) (agent : ContainerRequest → Option String)
    (w : SchedulerWorld) (e : Task)
    (hsettled : ∀ t0, w.feed e.Guid ≠ some ⟨t0, .Pending⟩) :
    s.handle agent w e = w := by
  unfold TaskScheduler.handle Feed.Claim
  cases hf : w.feed e.Guid with
  | none => simp
  | some en =>
    obtain ⟨t0, st⟩ := en
    cases st <;> simp
    exact absurd hf (hsettled t0)

/-- A claim on a Pending Task is won: one request is issued for it, built from
the Task that was delivered, and the Task is Pending no more. -/
theorem handle_won (s : TaskScheduler) (agent : ContainerRequest → Option String)
    (w : SchedulerWorld) (e t0 : Task) (hpending : w.feed e.Guid = some ⟨t0, .Pending⟩) :
    (∀ t1, (s.handle agent w e).feed e.Guid ≠ some ⟨t1, .Pending⟩) ∧
      (s.handle agent w e).issuedFor e.Guid = w.issuedFor e.Guid ++ [s.request e] := by
  unfold TaskScheduler.handle Feed.Claim
  rw [hpending]
  cases ha : agent (s.request e) <;>
    simp [ha, Feed.Start, Feed.CompleteTask, Function.update, SchedulerWorld.issuedFor,
      List.filter_append]

/-- Once the Task of identity `g` is not Pending, no further request is issued
for it, whatever is delivered. -/
theorem foldl_handle_settled (s : TaskScheduler) (agent : ContainerRequest → Option String)
    (g : String) (l : List Task) (w : SchedulerWorld)
    (hsettled : ∀ t0, w.feed g ≠ some ⟨t0, .Pending⟩) :
    (l.foldl (s.handle agent) w).issuedFor g = w.issuedFor g := by
  induction l generalizing w with
  | nil => rfl
  | cons e l ih =>
    rw [List.foldl_cons]
    by_cases heg : e.Guid = g
    · subst heg
      rw [handle_lost s agent w e hsettled]
      exact ih w hsettled
    · have ho := handle_other s agent w e g heg
      rw [ih (s.handle agent w e) (by rw [ho.1]; exact hsettled), ho.2]

/-- While the Task of identity `g` is Pending, the first delivery of a Task of
that identity gets one request issued, and no later delivery gets another. -/
theorem foldl_handle_pending (s : TaskScheduler) (agent : ContainerRequest → Option String)
    (g : String) (l : List Task) (w : SchedulerWorld) (t0 : Task)
    (hpending : w.feed g = some ⟨t0, .Pending⟩) (hin : ∃ e ∈ l, e.Guid = g) :
    ∃ e ∈ l, e.Guid = g ∧
      (l.foldl (s.handle agent) w).issuedFor g = w.issuedFor g ++ [s.request e] := by
  induction l generalizing w with
  | nil => simp at hin
  | cons e l ih =>
    rw [List.foldl_cons]
    by_cases heg : e.Guid = g
    · subst heg
      have hw := handle_won s agent w e t0 hpending
      refine ⟨e, List.mem_cons_self e l, rfl, ?_⟩
      rw [foldl_handle_settled s agent e.Guid l _ hw.1, hw.2]
    · have ho := handle_other s agent w e g heg
      have hin' : ∃ x ∈ l, x.Guid = g := by
        obtain ⟨x, hx, hxg⟩ := hin
        rcases List.mem_cons.mp hx with rfl | hx
        · exact absurd hxg heg
        · exact ⟨x, hx, hxg⟩
      obtain ⟨x, hx, hxg, hiss⟩ := ih (s.handle agent w e) (by rw [ho.1]; exact hpending) hin'
      exact ⟨x, List.mem_cons_of_mem e hx, hxg, by rw [hiss, ho.2]⟩

/-- C7: for a Task that is desired in the feed (held there as Pending), whose
stack is the stack of the scheduler and which the watch delivers at least once,
the scheduler issues exactly one request, a `POST /containers`, and the metadata
of that request decodes to a Task of the same identity, provided the
serialisation of a record of that identity decodes to that identity. -/
theorem watch_issues_one_request (s : TaskScheduler)
    (agent : ContainerRequest → Option String) (unmarshal : Bytes → Except String Task)
    (feed : Feed) (delivered : List Task) (t : Task)
    (hdesired : feed t.Guid = some ⟨t, .Pending⟩) (hstack : t.Stack = s.stack)
    (hwatch : t ∈ delivered)
    (hcodec : ∀ x ∈ delivered, x.Guid = t.Guid →
      ∃ y, unmarshal (s.marshal x) = .ok y ∧ y.Guid = x.Guid) :
    ∃ req, (s.watch agent ⟨feed, []⟩ delivered).issuedFor t.Guid = [req] ∧
      req.Method = "POST" ∧ req.Path = "/containers" ∧
      ∃ y, unmarshal req.Metadata = .ok y ∧ y.Guid = t.Guid := by
  have hmem : t ∈ WatchDesired s.stack delivered := by
    simp [WatchDesired, hwatch, hstack]
  obtain ⟨e, he, heg, hiss⟩ := foldl_handle_pending s agent t.Guid
    (WatchDesired s.stack delivered) ⟨feed, []⟩ t hdesired ⟨t, hmem, rfl⟩
  have hed : e ∈ delivered := (List.mem_filter.mp he).1
  obtain ⟨y, hy, hyg⟩ := hcodec e hed heg
  refine ⟨s.request e, ?_, rfl, rfl, y, hy, hyg.trans heg⟩
  simpa [TaskScheduler.watch, SchedulerWorld.issuedFor] using hiss

/-- Witness of C7: `taskA` is desired with stack "linux64", the scheduler has
stack "linux64", and the watch delivers `taskA` twice; one request is issued. -/
theorem watch_issues_one_request_witness :
    ∃ req, (Examples.scheduler.watch Examples.agentUp ⟨Examples.feedA, []⟩
        Examples.deliveredA).issuedFor Examples.taskA.Guid = [req] ∧
      req.Method = "POST" ∧ req.Path = "/containers" ∧
      ∃ y, Examples.decoders.UnmarshalTask req.Metadata = .ok y ∧
        y.Guid = Examples.taskA.Guid :=
  watch_issues_one_request Examples.scheduler Examples.agentUp
    Examples.decoders.UnmarshalTask Examples.feedA Examples.deliveredA Examples.taskA
    rfl rfl (List.mem_cons_self _ _)
    (by
      intro x hx hg
      simp only [Examples.deliveredA, List.mem_cons, List.mem_singleton] at hx
      rcases hx with rfl | rfl | rfl | hx
      · exact ⟨Examples.taskA, rfl, rfl⟩
      · exact absurd hg (by decide)
      · exact ⟨Examples.taskA, rfl, rfl⟩
      · cases hx)

end task_scheduler

end Rep
